import Mathlib

/-!
Verification of the AMQP message-queue adapter (`src/mq.ts`, class
`AmqpMessageQueue`) against its natural-language specification.

The TypeScript source is shallowly embedded as trace-producing functions:
every broker interaction performed by a method is recorded, in program
order, as an explicit event.  An `await`-ed asynchronous operation
contributes both its initiation (`...Start`) and its completion (`...Done`)
to the trace of the enclosing call; an asynchronous operation that is
invoked without `await` contributes only its synchronous initiation,
because its completion is not ordered before the enclosing promise
resolves.  JavaScript numbers reaching the delay path are modelled as
rationals, and the library functions the source calls
(`JSON.stringify`, `Buffer.from(_, "utf-8")`,
`Number.prototype.toLocaleString("en", \x7buseGrouping: false\x7d)`,
`AbortSignal` event dispatch) are modelled from their documented
ECMAScript / WHATWG semantics.
-/

namespace FedifyAmqp

/-- Constructor options of `AmqpMessageQueue` (mq.ts lines 61-69) with the
default values applied by the constructor.  The source field name of
`delayedQueuePfx` is the delayed-queue name front part option. -/
structure MQConfig where
  queue : String := "fedify_queue"
  delayedQueuePfx : String := "fedify_delayed_"
  durable : Bool := true
deriving DecidableEq, Repr

/-- Mutable instance state: the cached sender channel (mq.ts line 54) and a
counter supplying fresh channel identifiers. -/
structure MQState where
  senderChannel : Option Nat := none
  nextChannel : Nat := 0
deriving DecidableEq, Repr

/-- Option bag passed to `channel.assertQueue` (mq.ts lines 72-74 and
98-104).  Fields absent from a call site stay `none`. -/
structure AssertQueueOptions where
  durable : Bool
  autoDelete : Option Bool := none
  deadLetterExchange : Option String := none
  deadLetterRoutingKey : Option String := none
  messageTtl : Option ℚ := none
deriving DecidableEq, Repr

/-- Option bag passed to `channel.sendToQueue` (mq.ts lines 109-112). -/
structure PublishOptions where
  persistent : Bool
  contentType : String
deriving DecidableEq, Repr

/-- Broker interactions performed by the publish path, in program order.
`serializeAttempt` marks the evaluation of `JSON.stringify(message)` inside
the argument list of `sendToQueue` (mq.ts line 108); `serializeFailed`
marks that evaluation throwing, which aborts the call before any publish. -/
inductive Event where
  | createChannelStart (ch : Nat)
  | createChannelDone (ch : Nat)
  | assertQueueStart (ch : Nat) (queue : String) (opts : AssertQueueOptions)
  | assertQueueDone (ch : Nat) (queue : String) (opts : AssertQueueOptions)
  | serializeAttempt
  | serializeFailed
  | publish (ch : Nat) (queue : String) (body : List Nat) (opts : PublishOptions)
deriving DecidableEq, Repr

/-- JSON-representable payloads, mirroring the values `JSON.stringify`
serializes successfully (object keys keep insertion order, as in JS). -/
inductive JsonValue where
  | null
  | bool (b : Bool)
  | num (n : Int)
  | str (s : String)
  | arr (xs : List JsonValue)
  | obj (kvs : List (String × JsonValue))

/-- A payload handed to `enqueue`: either JSON-representable, or one on
which `JSON.stringify` throws (a circular structure or a BigInt). -/
inductive Payload where
  | json (v : JsonValue)
  | nonSerializable

/-- Lower-case hexadecimal digit, used by the JSON string escaper. -/
def hexDigit (n : Nat) : String :=
  String.singleton (if n < 10 then Char.ofNat (48 + n) else Char.ofNat (87 + n))

/-- Escape of a single character inside a JSON string literal, following
`JSON.stringify` (ECMA-262 QuoteJSONString). -/
def escapeJsonChar (c : Char) : String :=
  if c = '"' then "\\\""
  else if c = '\\' then "\\\\"
  else if c = Char.ofNat 8 then "\\b"
  else if c = Char.ofNat 9 then "\\t"
  else if c = Char.ofNat 10 then "\\n"
  else if c = Char.ofNat 12 then "\\f"
  else if c = Char.ofNat 13 then "\\r"
  else if c.toNat < 32 then "\\u00" ++ hexDigit (c.toNat / 16) ++ hexDigit (c.toNat % 16)
  else String.singleton c

/-- Escape of a whole JSON string body. -/
def jsonEscape (s : String) : String :=
  String.join (s.toList.map escapeJsonChar)

mutual

/-- Model of `JSON.stringify` on JSON-representable values. -/
def jsonStringify : JsonValue → String
  | .null => "null"
  | .bool true => "true"
  | .bool false => "false"
  | .num n => n.repr
  | .str s => "\"" ++ jsonEscape s ++ "\""
  | .arr xs => "[" ++ jsonStringifyList xs ++ "]"
  | .obj kvs => "\x7b" ++ jsonStringifyObj kvs ++ "\x7d"

/-- Comma-separated serialization of array elements. -/
def jsonStringifyList : List JsonValue → String
  | [] => ""
  | [v] => jsonStringify v
  | v :: vs => jsonStringify v ++ "," ++ jsonStringifyList vs

/-- Comma-separated serialization of object members. -/
def jsonStringifyObj : List (String × JsonValue) → String
  | [] => ""
  | [(k, v)] => "\"" ++ jsonEscape k ++ "\":" ++ jsonStringify v
  | (k, v) :: kvs =>
    "\"" ++ jsonEscape k ++ "\":" ++ jsonStringify v ++ "," ++ jsonStringifyObj kvs

end

/-- Model of `JSON.stringify(message)` on an enqueue payload: `none` means
the call throws a `TypeError` (Encoding Error). -/
def jsStringify : Payload → Option String
  | .json v => some (jsonStringify v)
  | .nonSerializable => none

/-- UTF-8 encoding of one code point, as a list of byte values. -/
def utf8EncodeChar (c : Char) : List Nat :=
  let n := c.toNat
  if n < 128 then [n]
  else if n < 2048 then [192 + n / 64, 128 + n % 64]
  else if n < 65536 then [224 + n / 4096, 128 + (n / 64) % 64, 128 + n % 64]
  else [240 + n / 262144, 128 + (n / 4096) % 64, 128 + (n / 64) % 64, 128 + n % 64]

/-- Model of `Buffer.from(s, "utf-8")`: the UTF-8 bytes of the string. -/
def utf8Encode (s : String) : List Nat :=
  (s.toList.map utf8EncodeChar).flatten

/-- Three-digit zero-padded decimal of a fraction part in `[1, 999]`, with
trailing zeros removed, as ECMA-402 number formatting prints a fraction
rounded to at most three digits. -/
def fracDigits (fp : ℤ) : String :=
  let n := fp.toNat
  let padded := if n < 10 then "00" ++ n.repr else if n < 100 then "0" ++ n.repr else n.repr
  String.mk (padded.toList.reverse.dropWhile (fun c => c = '0')).reverse

/-- Model of `Number.prototype.toLocaleString("en", \x7buseGrouping:
false\x7d)` on a nonnegative value (the reachable inputs, since the source
only formats a delay that is strictly positive): per ECMA-402 defaults the
value is rounded half-away-from-zero to at most three fraction digits
(minimum zero, so trailing zeros are dropped) and printed with Latin
digits and no grouping separators. -/
def jsToLocaleStringEn (q : ℚ) : String :=
  let n3 : ℤ := ⌊q * 1000 + 1/2⌋
  if n3 % 1000 = 0 then (n3 / 1000).repr
  else (n3 / 1000).repr ++ "." ++ fracDigits (n3 % 1000)

/-- Delayed-queue name computed at mq.ts lines 96-97:
the configured name front part concatenated with the formatted delay. -/
def delayQueueName (cfg : MQConfig) (d : ℚ) : String :=
  cfg.delayedQueuePfx ++ jsToLocaleStringEn d

/-- Option bag of the delayed-queue declaration (mq.ts lines 98-104). -/
def delayQueueOptions (cfg : MQConfig) (d : ℚ) : AssertQueueOptions :=
  { durable := cfg.durable
    autoDelete := some true
    deadLetterExchange := some ""
    deadLetterRoutingKey := some cfg.queue
    messageTtl := some d }

/-- Trace of an `await channel.assertQueue(q, opts)`: initiation followed
by broker completion. -/
def assertQueueOp (ch : Nat) (q : String) (opts : AssertQueueOptions) : List Event :=
  [.assertQueueStart ch q opts, .assertQueueDone ch q opts]

/-- Trace of `prepareQueue` (mq.ts lines 71-75): one awaited declaration of
the main queue with only the durability option. -/
def prepareQueue (cfg : MQConfig) (ch : Nat) : List Event :=
  assertQueueOp ch cfg.queue { durable := cfg.durable }

/-- Model of `getSenderChannel` (mq.ts lines 77-83).  On a cache hit the
cached channel is returned with no broker interaction.  Otherwise a channel
is created (awaited), cached, and `prepareQueue` is invoked WITHOUT
`await`: only the synchronous initiation of its `assertQueue` call (its
first trace event) is ordered before this method returns, so only that
initiation belongs to the trace of this call. -/
def getSenderChannel (cfg : MQConfig) (st : MQState) : List Event × Nat × MQState :=
  match st.senderChannel with
  | some ch => ([], ch, st)
  | none =>
    let ch := st.nextChannel
    ([.createChannelStart ch, .createChannelDone ch] ++ (prepareQueue cfg ch).take 1,
     ch,
     { senderChannel := some ch, nextChannel := ch + 1 })

/-- Result of an `enqueue` run: the broker-event trace in program order,
the updated instance state, and whether the returned promise fulfilled
(`ok = false` means it rejected with the serialization error). -/
structure EnqueueResult where
  events : List Event
  state : MQState
  ok : Bool
deriving DecidableEq, Repr

/-- Model of `enqueue` (mq.ts lines 85-114).  The sender channel is
obtained first; the delay (total milliseconds of the option, `none` when
absent) picks the target queue, declaring the delayed queue (awaited) when
strictly positive; then the message is serialized inside the argument list
of `sendToQueue` and, when serialization succeeds, published. -/
def enqueue (cfg : MQConfig) (st : MQState) (message : Payload) (delay : Option ℚ) :
    EnqueueResult :=
  let r := getSenderChannel cfg st
  let ch := r.2.1
  let dq : List Event × String :=
    match delay with
    | none => ([], cfg.queue)
    | some d =>
      if d ≤ 0 then ([], cfg.queue)
      else (assertQueueOp ch (delayQueueName cfg d) (delayQueueOptions cfg d),
            delayQueueName cfg d)
  match jsStringify message with
  | none => ⟨r.1 ++ (dq.1 ++ [.serializeAttempt, .serializeFailed]), r.2.2, false⟩
  | some s =>
    ⟨r.1 ++ (dq.1 ++ [.serializeAttempt,
        .publish ch dq.2 (utf8Encode s) ⟨cfg.durable, "application/json"⟩]),
     r.2.2, true⟩

/-- Publish events of a trace, projected to their payload fields. -/
def publishes (tr : List Event) : List (Nat × String × List Nat × PublishOptions) :=
  tr.filterMap fun e =>
    match e with
    | .publish ch q body opts => some (ch, q, body, opts)
    | _ => none

/-- Names of all queues whose declaration is initiated in a trace. -/
def assertedQueues (tr : List Event) : List String :=
  tr.filterMap fun e =>
    match e with
    | .assertQueueStart _ q _ => some q
    | _ => none

/-- Discriminator for declaration-completed events. -/
def isAssertQueueDone : Event → Bool
  | .assertQueueDone .. => true
  | _ => false

/-- The default configuration and the fresh instance state. -/
def cfg0 : MQConfig := {}

/-- Fresh instance state: no cached sender channel. -/
def st0 : MQState := {}

/-- Possible behaviours of a caller-supplied handler on one message:
return normally, throw synchronously, or return a promise that either
fulfills or rejects. -/
inductive HandlerBehavior where
  | syncOk
  | syncThrow
  | asyncOk
  | asyncThrow
deriving DecidableEq, Repr

/-- Events inside one run of the consume callback of `listen`. -/
inductive CbEvent where
  | parseAttempt
  | handlerStart
  | handlerSyncDone (ok : Bool)
  | handlerAsyncSettled (ok : Bool)
  | ack
  | log
deriving DecidableEq, Repr

/-- Model of the consume callback registered by `listen` (mq.ts lines
124-135), for one delivery.  `msgNull` models the `msg == null`
consumer-cancelled notification, returned early.  `parseOk` tells whether
`JSON.parse` of the body succeeds; on failure it throws and nothing
catches or logs it, so the callback itself throws.  Otherwise the handler
runs: a promise result gets `ack` chained through `.finally` (running on
fulfillment and on rejection alike, without rethrowing into the callback),
a synchronous return is acked directly, and a synchronous throw propagates
out of the callback before the `ack` statement is reached.  The returned
boolean reports whether the callback threw. -/
def consumeCallback (msgNull : Bool) (parseOk : Bool) (h : HandlerBehavior) :
    List CbEvent × Bool :=
  if msgNull then ([], false)
  else if !parseOk then ([.parseAttempt], true)
  else
    match h with
    | .syncOk => ([.parseAttempt, .handlerStart, .handlerSyncDone true, .ack], false)
    | .syncThrow => ([.parseAttempt, .handlerStart, .handlerSyncDone false], true)
    | .asyncOk => ([.parseAttempt, .handlerStart, .handlerAsyncSettled true, .ack], false)
    | .asyncThrow => ([.parseAttempt, .handlerStart, .handlerAsyncSettled false, .ack], false)

/-- Shutdown-phase events of a `listen` call. -/
inductive SdEvent where
  | cancelStart (tag : String)
  | cancelDone (tag : String)
  | closeStart
  | closeDone
  | resolveCompletion
deriving DecidableEq, Repr

/-- Sequencing of a promise chain: the first operation completes, then the
continuation runs. -/
def jsThen (op cont : List SdEvent) : List SdEvent :=
  op ++ cont

/-- Trace of `channel.cancel(tag)` up to broker acknowledgment. -/
def cancelOp (tag : String) : List SdEvent :=
  [.cancelStart tag, .cancelDone tag]

/-- Trace of `channel.close()` up to completion. -/
def closeOp : List SdEvent :=
  [.closeStart, .closeDone]

/-- Model of the abort listener installed by `listen` (mq.ts lines
137-141): `channel.cancel(reply.consumerTag).then(() =>
channel.close().then(() => resolve()))`. -/
def abortListenerTrace (tag : String) : List SdEvent :=
  jsThen (cancelOp tag) (jsThen closeOp [.resolveCompletion])

/-- Events a signal dispatches to listeners registered at a given moment. -/
inductive SignalEvent where
  | abortFired
deriving DecidableEq, Repr

/-- Model of a WHATWG `AbortSignal` as seen from the listener registration
inside `listen`: its aborted flag at registration time and the events it
dispatches afterwards.  Per the WHATWG specification the abort event is
dispatched exactly when the signal transitions from non-aborted to
aborted, so a signal that is already aborted when the listener is
registered never dispatches to it; that platform fact is carried as the
invariant field. -/
structure SignalModel where
  abortedAtRegistration : Bool
  eventsAfterRegistration : List SignalEvent
  already_aborted_never_fires :
    abortedAtRegistration = true → eventsAfterRegistration = []

/-- Model of the promise returned by `listen` (mq.ts lines 136-142): the
executor only registers the abort listener (when a signal is provided),
and the listener body is the only code path calling `resolve`, so the
shutdown trace is the abort-listener trace when an abort event is
dispatched and empty otherwise. -/
def listenWaitTrace (signal : Option SignalModel) (tag : String) : List SdEvent :=
  match signal with
  | none => []
  | some s =>
    if s.eventsAfterRegistration.contains .abortFired then abortListenerTrace tag
    else []

/-- Whether the promise returned by `listen` ever resolves. -/
def listenCompletionResolves (signal : Option SignalModel) (tag : String) : Bool :=
  (listenWaitTrace signal tag).contains .resolveCompletion

/-- Strict precedence of two entries in a list, by position. -/
def precedesIn (l : List α) (a b : α) : Prop :=
  ∃ i j, i < j ∧ l.get? i = some a ∧ l.get? j = some b

/-- A signal that is already aborted when the listener is registered. -/
def preAbortedSignal : SignalModel :=
  ⟨true, [], fun _ => rfl⟩

/-- C1: the claim states that every delivered message is acknowledged after
the handler completes, in success and failure alike, explicitly including a
handler that throws synchronously.  The code violates the synchronous-throw
case: `const result = handler(message)` throws before the `channel.ack`
statement on the synchronous branch is reached, so the callback propagates
the exception and never acks, while a synchronously returning handler and a
promise-returning handler (fulfilled or rejected, via `.finally`) are all
acked.  This theorem evaluates the consume-callback model at the failing
input and at the three acknowledged behaviours. -/
theorem c1_sync_throw_skips_ack :
    consumeCallback false true .syncThrow
      = ([.parseAttempt, .handlerStart, .handlerSyncDone false], true) ∧
    CbEvent.ack ∉ (consumeCallback false true .syncThrow).1 ∧
    CbEvent.ack ∈ (consumeCallback false true .syncOk).1 ∧
    CbEvent.ack ∈ (consumeCallback false true .asyncOk).1 ∧
    CbEvent.ack ∈ (consumeCallback false true .asyncThrow).1 := by
  decide

/-- C3: the claim states that the main queue is declared by the time the
publish-channel getter resolves.  The code calls `prepareQueue(channel)`
WITHOUT `await` (mq.ts line 81), so on the first call the trace of the
getter contains the initiation of the main-queue declaration but not its
completion: the returned promise resolves before the declaration has
completed.  This theorem evaluates the getter model at the failing input
(a fresh instance, default configuration). -/
theorem c3_declare_not_completed_before_return :
    getSenderChannel cfg0 st0 =
      ([.createChannelStart 0, .createChannelDone 0,
        .assertQueueStart 0 "fedify_queue" ⟨true, none, none, none, none⟩],
       0, ⟨some 0, 1⟩) ∧
    (∀ e ∈ (getSenderChannel cfg0 st0).1, isAssertQueueDone e = false) := by
  refine ⟨rfl, ?_⟩
  decide

/-- C5 counterexample: the claim states that a deserialization failure is
swallowed and logged inside the consumer loop and does not escape the
per-message consume callback.  In the code `JSON.parse` is not wrapped in
any try/catch and nothing logs: evaluating the callback model at a message
whose body fails to parse shows the callback throws, emits no log event,
and never acks. -/
theorem c5_parse_error_escapes :
    (consumeCallback false false .syncOk).2 = true ∧
    CbEvent.log ∉ (consumeCallback false false .syncOk).1 ∧
    CbEvent.ack ∉ (consumeCallback false false .syncOk).1 := by
  decide

/-- C5 amended: if deserialization of an inbound message fails, the error
propagates out of the per-message consume callback (nothing catches or
logs it), the handler is never invoked, and the message is not
acknowledged; each callback invocation is independent, so other messages
are unaffected. -/
theorem c5_parse_error_propagates (h : HandlerBehavior) :
    consumeCallback false false h = ([.parseAttempt], true) ∧
    CbEvent.log ∉ (consumeCallback false false h).1 ∧
    CbEvent.handlerStart ∉ (consumeCallback false false h).1 ∧
    CbEvent.ack ∉ (consumeCallback false false h).1 := by
  cases h <;> exact ⟨rfl, by decide, by decide, by decide⟩

/-- C9: when the cancellation signal fires, the abort listener first
issues the consumer cancel and awaits its acknowledgment, then closes the
channel, and only then resolves the completion promise; resolution is the
last event of the shutdown trace. -/
theorem c9_shutdown_order (tag : String) :
    abortListenerTrace tag =
      [.cancelStart tag, .cancelDone tag, .closeStart, .closeDone, .resolveCompletion] ∧
    precedesIn (abortListenerTrace tag) (.cancelStart tag) (.cancelDone tag) ∧
    precedesIn (abortListenerTrace tag) (.cancelDone tag) .closeStart ∧
    precedesIn (abortListenerTrace tag) .closeDone .resolveCompletion ∧
    (abortListenerTrace tag).get? 4 = some .resolveCompletion ∧
    (abortListenerTrace tag).length = 5 := by
  exact ⟨rfl, ⟨0, 1, by omega, rfl, rfl⟩, ⟨1, 2, by omega, rfl, rfl⟩,
    ⟨3, 4, by omega, rfl, rfl⟩, rfl, rfl⟩

/-- C10: the promise returned by `listen` resolves only through the abort
listener, so with no signal it never resolves, and with a signal that is
already aborted at registration time it never resolves either, because a
WHATWG abort signal dispatches its abort event only on the transition from
non-aborted to aborted. -/
theorem c10_never_resolves_without_future_abort :
    (∀ tag, listenCompletionResolves none tag = false) ∧
    (∀ (s : SignalModel) (tag : String), s.abortedAtRegistration = true →
      listenCompletionResolves (some s) tag = false) := by
  refine ⟨fun tag => rfl, fun s tag hs => ?_⟩
  simp [listenCompletionResolves, listenWaitTrace, s.already_aborted_never_fires hs]

/-- Witness for C10 at a concrete pre-aborted signal and the absent
signal. -/
theorem c10_never_resolves_without_future_abort_witness :
    listenCompletionResolves (some preAbortedSignal) "amq.ctag-1" = false ∧
    listenCompletionResolves none "amq.ctag-1" = false :=
  ⟨c10_never_resolves_without_future_abort.2 preAbortedSignal "amq.ctag-1" rfl,
   c10_never_resolves_without_future_abort.1 "amq.ctag-1"⟩

/-- Rounding step of the formatter on an integer input: the scaled and
half-shifted value floors back to the scaled integer. -/
theorem floor_mul_thousand_add_half (d : ℕ) :
    ⌊(d : ℚ) * 1000 + 1/2⌋ = 1000 * (d : ℤ) := by
  rw [Int.floor_eq_iff]
  constructor
  · push_cast; linarith
  · push_cast; linarith

/-- C4 counterexample: the claim states that for every positive delay the
queue name is the configured front part followed by the plain decimal
representation of the delay, round-tripping the delay value exactly.  The
code formats the delay with the en-locale formatter, which rounds to at
most three fraction digits, so the two distinct positive delays 1 and
1.0001 milliseconds produce the identical queue name: the name cannot
round-trip the delay value. -/
theorem c4_fractional_delays_collide :
    delayQueueName cfg0 (10001 / 10000 : ℚ) = delayQueueName cfg0 1 ∧
    (10001 / 10000 : ℚ) ≠ 1 ∧ (0 : ℚ) < 10001 / 10000 ∧ (0 : ℚ) < 1 := by
  have h1 : ⌊(10001 / 10000 : ℚ) * 1000 + 1/2⌋ = 1000 := by
    norm_num [Int.floor_eq_iff]
  have h2 : ⌊(1 : ℚ) * 1000 + 1/2⌋ = 1000 := by
    norm_num [Int.floor_eq_iff]
  refine ⟨?_, by norm_num, by norm_num, by norm_num⟩
  simp only [delayQueueName, jsToLocaleStringEn, h1, h2]

/-- C4 amended: for every positive integer delay (in milliseconds) the
delay-queue name equals the configured front part concatenated with the
plain decimal representation of the delay, with no grouping separators,
and equal delays always produce the identical name; for non-integer delays
the formatter rounds to at most three fraction digits, so only delays
representable with at most three decimals round-trip. -/
theorem c4_integer_delay_name (cfg : MQConfig) (d : ℕ) (_hd : 0 < d) :
    delayQueueName cfg (d : ℚ) = cfg.delayedQueuePfx ++ Nat.repr d := by
  have h3 := floor_mul_thousand_add_half d
  have hmod : (1000 : ℤ) * (d : ℤ) % 1000 = 0 := Int.mul_emod_right 1000 (d : ℤ)
  have hdiv : (1000 : ℤ) * (d : ℤ) / 1000 = (d : ℤ) :=
    Int.mul_ediv_cancel_left (d : ℤ) (by norm_num)
  simp only [delayQueueName, jsToLocaleStringEn, h3, hmod, hdiv, if_pos]
  rfl

/-- Witness for C4 amended at the concrete delay of 3000 milliseconds. -/
theorem c4_integer_delay_name_witness :
    0 < 3000 ∧
    delayQueueName cfg0 ((3000 : ℕ) : ℚ) = cfg0.delayedQueuePfx ++ Nat.repr 3000 :=
  ⟨by decide, c4_integer_delay_name cfg0 3000 (by decide)⟩

/-- C2 counterexample: the claim states that a serialization failure
happens before any broker interaction, with no channel created and no
queue declared.  In the code `JSON.stringify` is evaluated inside the
argument list of `sendToQueue`, after the sender channel is obtained:
running `enqueue` on a fresh instance with a non-serializable payload
produces a trace whose first three events create the channel and initiate
the main-queue declaration, before the serialization attempt fails. -/
theorem c2_broker_interaction_precedes_serialization :
    (enqueue cfg0 st0 .nonSerializable none).ok = false ∧
    (enqueue cfg0 st0 .nonSerializable none).events =
      [.createChannelStart 0, .createChannelDone 0,
       .assertQueueStart 0 "fedify_queue" ⟨true, none, none, none, none⟩,
       .serializeAttempt, .serializeFailed] :=
  ⟨rfl, rfl⟩

/-- C2 amended: if serializing the payload fails, enqueue fails with the
encoding error and nothing is published; the serialization attempt is,
however, the last step, performed after the sender channel is obtained
(created on first use, with the main-queue declaration initiated) and
after any delay-queue declaration. -/
theorem c2_serialize_failure_publishes_nothing (cfg : MQConfig) (st : MQState)
    (message : Payload) (delay : Option ℚ) (hm : jsStringify message = none) :
    (enqueue cfg st message delay).ok = false ∧
    publishes (enqueue cfg st message delay).events = [] ∧
    Event.serializeAttempt ∈ (enqueue cfg st message delay).events ∧
    Event.serializeFailed ∈ (enqueue cfg st message delay).events := by
  rcases delay with _ | d
  · cases hch : st.senderChannel <;>
      simp [enqueue, getSenderChannel, hch, hm, publishes, prepareQueue, assertQueueOp]
  · by_cases hd0 : d ≤ 0 <;> cases hch : st.senderChannel <;>
      simp [enqueue, getSenderChannel, hch, hm, hd0, publishes, prepareQueue, assertQueueOp]

/-- Witness for C2 amended at a concrete non-serializable payload on a
fresh instance. -/
theorem c2_serialize_failure_publishes_nothing_witness :
    jsStringify Payload.nonSerializable = none ∧
    ((enqueue cfg0 st0 Payload.nonSerializable none).ok = false ∧
     publishes (enqueue cfg0 st0 Payload.nonSerializable none).events = [] ∧
     Event.serializeAttempt ∈ (enqueue cfg0 st0 Payload.nonSerializable none).events ∧
     Event.serializeFailed ∈ (enqueue cfg0 st0 Payload.nonSerializable none).events) :=
  ⟨rfl, c2_serialize_failure_publishes_nothing cfg0 st0 Payload.nonSerializable none rfl⟩

/-- C6: when the delay option is absent, zero, or negative, the message is
published directly to the main queue, and every queue declaration in the
trace is a declaration of the main queue, so no delay queue is declared. -/
theorem c6_no_delay_publishes_to_main_queue (cfg : MQConfig) (st : MQState)
    (message : Payload) (delay : Option ℚ) (s : String)
    (hd : delay = none ∨ ∃ d, delay = some d ∧ d ≤ 0)
    (hs : jsStringify message = some s) :
    (∃ ch, publishes (enqueue cfg st message delay).events =
      [(ch, cfg.queue, utf8Encode s, ⟨cfg.durable, "application/json"⟩)]) ∧
    (∀ q ∈ assertedQueues (enqueue cfg st message delay).events, q = cfg.queue) := by
  rcases hd with rfl | ⟨d, rfl, hd0⟩
  · cases hch : st.senderChannel with
    | none =>
      refine ⟨⟨st.nextChannel, ?_⟩, ?_⟩
      · simp [enqueue, getSenderChannel, hch, hs, publishes, prepareQueue, assertQueueOp]
      · intro q hq
        simpa [enqueue, getSenderChannel, hch, hs, assertedQueues, prepareQueue,
          assertQueueOp] using hq
    | some c =>
      refine ⟨⟨c, ?_⟩, ?_⟩
      · simp [enqueue, getSenderChannel, hch, hs, publishes]
      · intro q hq
        simp [enqueue, getSenderChannel, hch, hs, assertedQueues] at hq
  · cases hch : st.senderChannel with
    | none =>
      refine ⟨⟨st.nextChannel, ?_⟩, ?_⟩
      · simp [enqueue, getSenderChannel, hch, hs, hd0, publishes, prepareQueue, assertQueueOp]
      · intro q hq
        simpa [enqueue, getSenderChannel, hch, hs, hd0, assertedQueues, prepareQueue,
          assertQueueOp] using hq
    | some c =>
      refine ⟨⟨c, ?_⟩, ?_⟩
      · simp [enqueue, getSenderChannel, hch, hs, hd0, publishes]
      · intro q hq
        simp [enqueue, getSenderChannel, hch, hs, hd0, assertedQueues] at hq

/-- Witness for C6 at the zero-delay edge case on a fresh instance. -/
theorem c6_no_delay_publishes_to_main_queue_witness :
    jsStringify (Payload.json (JsonValue.str "hi")) = some "\"hi\"" ∧
    ((∃ ch, publishes (enqueue cfg0 st0 (Payload.json (JsonValue.str "hi")) (some 0)).events =
      [(ch, cfg0.queue, utf8Encode "\"hi\"", ⟨cfg0.durable, "application/json"⟩)]) ∧
     (∀ q ∈ assertedQueues (enqueue cfg0 st0 (Payload.json (JsonValue.str "hi"))
        (some 0)).events, q = cfg0.queue)) :=
  ⟨rfl, c6_no_delay_publishes_to_main_queue cfg0 st0 (Payload.json (JsonValue.str "hi"))
    (some 0) "\"hi\"" (Or.inr ⟨0, rfl, le_refl 0⟩) rfl⟩

/-- C7: for a strictly positive delay, the delay queue (named by the
configured front part and the formatted delay) is declared with
auto-delete enabled, durability equal to the configured flag, dead-letter
exchange set to the default exchange with routing key equal to the main
queue, and message time-to-live equal to the delay; the declaration is
awaited (initiation then completion) and precedes the publish, which
targets the delay queue, as the sublist ordering states. -/
theorem c7_positive_delay_declares_delay_queue (cfg : MQConfig) (st : MQState)
    (message : Payload) (s : String) (d : ℚ)
    (hd : 0 < d) (hs : jsStringify message = some s) :
    ∃ ch, List.Sublist
      [Event.assertQueueStart ch (delayQueueName cfg d) (delayQueueOptions cfg d),
       Event.assertQueueDone ch (delayQueueName cfg d) (delayQueueOptions cfg d),
       Event.publish ch (delayQueueName cfg d) (utf8Encode s)
         ⟨cfg.durable, "application/json"⟩]
      (enqueue cfg st message (some d)).events := by
  have hd0 : ¬ d ≤ 0 := not_le.mpr hd
  cases hch : st.senderChannel with
  | none =>
    refine ⟨st.nextChannel, ?_⟩
    have heq : (enqueue cfg st message (some d)).events =
        [Event.createChannelStart st.nextChannel, Event.createChannelDone st.nextChannel,
         Event.assertQueueStart st.nextChannel cfg.queue ⟨cfg.durable, none, none, none, none⟩,
         Event.assertQueueStart st.nextChannel (delayQueueName cfg d) (delayQueueOptions cfg d),
         Event.assertQueueDone st.nextChannel (delayQueueName cfg d) (delayQueueOptions cfg d),
         Event.serializeAttempt,
         Event.publish st.nextChannel (delayQueueName cfg d) (utf8Encode s)
           ⟨cfg.durable, "application/json"⟩] := by
      simp [enqueue, getSenderChannel, hch, hs, hd0, prepareQueue, assertQueueOp]
    rw [heq]
    exact .cons _ (.cons _ (.cons _ (.cons₂ _ (.cons₂ _ (.cons _ (List.Sublist.refl _))))))
  | some c =>
    refine ⟨c, ?_⟩
    have heq : (enqueue cfg st message (some d)).events =
        [Event.assertQueueStart c (delayQueueName cfg d) (delayQueueOptions cfg d),
         Event.assertQueueDone c (delayQueueName cfg d) (delayQueueOptions cfg d),
         Event.serializeAttempt,
         Event.publish c (delayQueueName cfg d) (utf8Encode s)
           ⟨cfg.durable, "application/json"⟩] := by
      simp [enqueue, getSenderChannel, hch, hs, hd0, assertQueueOp]
    rw [heq]
    exact .cons₂ _ (.cons₂ _ (.cons _ (List.Sublist.refl _)))

/-- Witness for C7 at the concrete delay of 3000 milliseconds on a fresh
instance. -/
theorem c7_positive_delay_declares_delay_queue_witness :
    (0 : ℚ) < 3000 ∧
    jsStringify (Payload.json (JsonValue.str "hi")) = some "\"hi\"" ∧
    (∃ ch, List.Sublist
      [Event.assertQueueStart ch (delayQueueName cfg0 3000) (delayQueueOptions cfg0 3000),
       Event.assertQueueDone ch (delayQueueName cfg0 3000) (delayQueueOptions cfg0 3000),
       Event.publish ch (delayQueueName cfg0 3000) (utf8Encode "\"hi\"")
         ⟨cfg0.durable, "application/json"⟩]
      (enqueue cfg0 st0 (Payload.json (JsonValue.str "hi")) (some 3000)).events) :=
  ⟨by norm_num, rfl,
   c7_positive_delay_declares_delay_queue cfg0 st0 (Payload.json (JsonValue.str "hi"))
     "\"hi\"" 3000 (by norm_num) rfl⟩

/-- C8: every publish performed by enqueue (there is exactly one per
successful call) carries the persistent flag equal to the configured
durable flag, the content type `application/json`, and a body equal to the
UTF-8 encoding of the JSON serialization of the message. -/
theorem c8_publish_metadata_and_body (cfg : MQConfig) (st : MQState)
    (message : Payload) (delay : Option ℚ) (s : String)
    (hs : jsStringify message = some s) :
    ∃ ch q, publishes (enqueue cfg st message delay).events =
      [(ch, q, utf8Encode s, ⟨cfg.durable, "application/json"⟩)] := by
  rcases delay with _ | d
  · cases hch : st.senderChannel with
    | none => exact ⟨st.nextChannel, cfg.queue, by
        simp [enqueue, getSenderChannel, hch, hs, publishes, prepareQueue, assertQueueOp]⟩
    | some c => exact ⟨c, cfg.queue, by
        simp [enqueue, getSenderChannel, hch, hs, publishes]⟩
  · by_cases hd0 : d ≤ 0
    · cases hch : st.senderChannel with
      | none => exact ⟨st.nextChannel, cfg.queue, by
          simp [enqueue, getSenderChannel, hch, hs, hd0, publishes, prepareQueue,
            assertQueueOp]⟩
      | some c => exact ⟨c, cfg.queue, by
          simp [enqueue, getSenderChannel, hch, hs, hd0, publishes]⟩
    · cases hch : st.senderChannel with
      | none => exact ⟨st.nextChannel, delayQueueName cfg d, by
          simp [enqueue, getSenderChannel, hch, hs, hd0, publishes, prepareQueue,
            assertQueueOp]⟩
      | some c => exact ⟨c, delayQueueName cfg d, by
          simp [enqueue, getSenderChannel, hch, hs, hd0, publishes, assertQueueOp]⟩

/-- Witness for C8 at a concrete string payload on a fresh instance with
no delay. -/
theorem c8_publish_metadata_and_body_witness :
    jsStringify (Payload.json (JsonValue.str "Hello, world!"))
      = some "\"Hello, world!\"" ∧
    (∃ ch q, publishes (enqueue cfg0 st0 (Payload.json (JsonValue.str "Hello, world!"))
        none).events =
      [(ch, q, utf8Encode "\"Hello, world!\"", ⟨cfg0.durable, "application/json"⟩)]) :=
  ⟨rfl, c8_publish_metadata_and_body cfg0 st0 (Payload.json (JsonValue.str "Hello, world!"))
    none "\"Hello, world!\"" rfl⟩

end FedifyAmqp
